import Mathlib

/-!
Verification of the declarative-configuration synthesis engine specified for
the github-actions-cdk examples: a typed builder graph
(Project → Workflow → Job → Step) that is validated and deterministically
serialized to one structured-text document per workflow.

The repository ships only the example call sites; the engine itself
(node graph, validator, document builder, serializer, synthesis coordinator)
is modelled here from the specification, faithful to its words and to the
shapes exercised by the example scripts.
-/

/-- Modelled from the spec: a scalar value with a declared type
(string, boolean or number); the serializer chooses quoting from this
declared type, never from string content. -/
inductive Scalar where
  | str (s : String)
  | bool (b : Bool)
  | num (n : Int)
deriving DecidableEq, BEq

/-- Modelled from the spec: the intermediate document model, an ordered tree
of mappings, sequences and scalars mirroring the target schema; mapping
entries keep insertion order. -/
inductive DocNode where
  | scalar (v : Scalar)
  | mapping (entries : List (String × DocNode))
  | sequence (items : List DocNode)

/-- Modelled from the spec: the closed enumeration of permission levels
{READ, WRITE, NONE, ADMIN}. -/
inductive PermissionLevel where
  | read
  | write
  | none
  | admin
deriving DecidableEq, BEq

/-- Modelled from the spec: a symbolic reference to a Step's named output,
resolved to an expression string only at document-building time. -/
inductive Reference where
  | stepOutput (stepId : String) (name : String)
deriving DecidableEq, BEq

/-- Modelled from the spec: a Step node: id, display name, a versioned
reference to reusable logic, a parameter mapping, and declared output
names. -/
structure Step where
  id : String
  name : String
  uses : String
  params : List (String × Scalar)
  declaredOutputs : List String
deriving DecidableEq, BEq

/-- Modelled from the spec: a Job node: id, environment-variable mapping,
ordered steps, and an output mapping from names to symbolic references. -/
structure Job where
  id : String
  env : List (String × Scalar)
  steps : List Step
  outputs : List (String × Reference)
deriving DecidableEq, BEq

/-- Modelled from the spec: a Workflow node: id, display name, trigger
specification, permission map and ordered jobs. -/
structure Workflow where
  id : String
  name : String
  triggers : List (String × DocNode)
  permissions : List (String × PermissionLevel)
  jobs : List Job

/-- Modelled from the spec: the Project root scope: output-location
configuration and ordered workflows. -/
structure Project where
  outdir : String
  workflows : List Workflow

/-- Modelled from the spec: severity of a validation issue. -/
inductive Severity where
  | error
  | warning
deriving DecidableEq, BEq

/-- Modelled from the spec: one issue found by the attribute validator. -/
structure ValidationIssue where
  path : String
  message : String
  severity : Severity
deriving DecidableEq, BEq

/-- Modelled from the spec: the error taxonomy of the engine. -/
inductive SynthError where
  | duplicateId (scopePath : String) (id : String)
  | unresolvedReference (stepId : String) (name : String)
  | validationError (issues : List ValidationIssue)
  | duplicateOutputPath (path : String)
deriving DecidableEq, BEq

/-- Modelled from the spec: detached construction of a Step (no ambient
scope); attaching it to a Job happens separately via `Job.add_action`. -/
def mkStep (id name uses : String) (params : List (String × Scalar))
    (declaredOutputs : List String) : Step :=
  ⟨id, name, uses, params, declaredOutputs⟩

/-- Modelled from the spec: `createChild`-style construction of a Step with
the parent Job passed as the scope parameter; enforces sibling-id
uniqueness at construction time, failing with `DuplicateIdError`
otherwise, and registers the step at the end of the job's ordered step
collection. -/
def Step.construct (scope : Job) (id name uses : String)
    (params : List (String × Scalar)) (declaredOutputs : List String) :
    Except SynthError Job :=
  if (scope.steps.map Step.id).contains id then
    .error (.duplicateId scope.id id)
  else
    .ok { scope with steps := scope.steps ++ [⟨id, name, uses, params, declaredOutputs⟩] }

/-- Modelled from the spec: attaching a detached Step to a Job; same
sibling-id check and ordered registration as scope-parameter
construction. -/
def Job.add_action (j : Job) (s : Step) : Except SynthError Job :=
  if (j.steps.map Step.id).contains s.id then
    .error (.duplicateId j.id s.id)
  else
    .ok { j with steps := j.steps ++ [s] }

/-- Modelled from the spec: adding a Job under a Workflow, enforcing
sibling-id uniqueness at construction time. -/
def Workflow.add_job (w : Workflow) (j : Job) : Except SynthError Workflow :=
  if (w.jobs.map Job.id).contains j.id then
    .error (.duplicateId w.id j.id)
  else
    .ok { w with jobs := w.jobs ++ [j] }

/-- Modelled from the spec: adding a Workflow under a Project, enforcing
sibling-id uniqueness at construction time. -/
def Project.add_workflow (p : Project) (w : Workflow) : Except SynthError Project :=
  if (p.workflows.map Workflow.id).contains w.id then
    .error (.duplicateId "project" w.id)
  else
    .ok { p with workflows := p.workflows ++ [w] }

/-- Modelled from the spec: adding a Job-level output holding a symbolic
reference; resolution is deferred to document building. -/
def Job.add_output (j : Job) (name : String) (r : Reference) : Job :=
  { j with outputs := j.outputs ++ [(name, r)] }

/-- Modelled from the spec: declared hyphenated output names are exposed as
snake_case attributes on the outputs handle; this converts the attribute
name back to the declared name. -/
def snakeToHyphen (s : String) : String :=
  String.mk (s.data.map (fun c => if c = '_' then '-' else c))

/-- Modelled from the spec: accessing a declared output on a Step's outputs
handle before synthesis; returns a symbolic reference (no eager
resolution), or nothing when the name was never declared. -/
def Step.outputsAttr (s : Step) (attr : String) : Option Reference :=
  if s.declaredOutputs.contains (snakeToHyphen attr) then
    some (.stepOutput s.id (snakeToHyphen attr))
  else
    Option.none

/-- Modelled from the spec: scalar rendering chooses quoting from the
declared type: strings are always quoted, booleans and numbers never. -/
def renderScalar : Scalar → String
  | .str s => "\"" ++ s ++ "\""
  | .bool b => if b then "true" else "false"
  | .num n => toString n

/-- Indentation prefix used by the serializer: two spaces per level. -/
def indentStr (n : Nat) : String :=
  String.mk (List.replicate (2 * n) ' ')

mutual

/-- Modelled from the spec: the serializer renders a document node to output
lines, deterministically and preserving insertion order of mapping keys. -/
def nodeLines : Nat → DocNode → List String
  | ind, .scalar v => [indentStr ind ++ renderScalar v]
  | ind, .mapping es => entryLines ind es
  | ind, .sequence xs => seqLines ind xs

/-- Lines produced for the entries of a mapping, in entry order. -/
def entryLines : Nat → List (String × DocNode) → List String
  | _, [] => []
  | ind, (k, v) :: rest =>
    ((indentStr ind ++ k ++ ":") :: nodeLines (ind + 1) v) ++ entryLines ind rest

/-- Lines produced for the items of a sequence, in item order. -/
def seqLines : Nat → List DocNode → List String
  | _, [] => []
  | ind, x :: rest =>
    ((indentStr ind ++ "-") :: nodeLines (ind + 1) x) ++ seqLines ind rest

end

/-- Modelled from the spec: `render(documentNode) -> text`, the deterministic
serializer. -/
def render (d : DocNode) : String :=
  String.intercalate "\n" (nodeLines 0 d) ++ "\n"

/-- Modelled from the spec: an issue is blocking exactly when its severity is
error. -/
def ValidationIssue.isError (i : ValidationIssue) : Bool :=
  i.severity == .error

/-- Modelled from the spec: per-Job validation rules: env keys must be
non-empty strings, and every Job-level output reference must resolve to a
Step that exists in the same Job (else validation fails with an
error-severity issue). All issues are collected, none is dropped. -/
def Job.issues (wfId : String) (j : Job) : List ValidationIssue :=
  ((j.env.filter (fun kv => kv.1 = "")).map
    (fun _ => ⟨wfId ++ "/" ++ j.id, "env key must be a non-empty string", .error⟩))
  ++ (j.outputs.filterMap (fun kv =>
      match kv.2 with
      | .stepOutput sid name =>
        if (j.steps.map Step.id).contains sid then
          Option.none
        else
          some ⟨wfId ++ "/" ++ j.id,
                "unresolved reference to step " ++ sid ++ " output " ++ name, .error⟩))

/-- Modelled from the spec: per-Workflow validation rules: a Workflow must
have at least one Job; all Job issues are collected in one pass. -/
def Workflow.issues (w : Workflow) : List ValidationIssue :=
  (if w.jobs.isEmpty then
    [⟨w.id, "workflow must have at least one job", .error⟩]
  else [])
  ++ w.jobs.flatMap (Job.issues w.id)

/-- Modelled from the spec: `validate(projectRoot) -> list<ValidationIssue>`;
walks the tree and returns all issues rather than failing fast. -/
def validate (p : Project) : List ValidationIssue :=
  p.workflows.flatMap Workflow.issues

/-- Modelled from the spec: resolving a symbolic output reference during
document building: a reference to an existing Step in the same Job
resolves to the schema's expression string; otherwise document building
fails with `UnresolvedReferenceError`. -/
def resolveReference (j : Job) (r : Reference) : Except SynthError String :=
  match r with
  | .stepOutput sid name =>
    if (j.steps.map Step.id).contains sid then
      .ok ("$\x7b\x7b steps." ++ sid ++ ".outputs." ++ name ++ " \x7d\x7d")
    else
      .error (.unresolvedReference sid name)

/-- Modelled from the spec: document model for one Step: id, display name,
the versioned reusable-logic reference, and the parameter mapping, in
insertion order. -/
def buildStep (s : Step) : DocNode :=
  .mapping (
    [("id", .scalar (.str s.id)),
     ("name", .scalar (.str s.name)),
     ("uses", .scalar (.str s.uses))]
    ++ (if s.params.isEmpty then []
        else [("with", .mapping (s.params.map (fun kv => (kv.1, DocNode.scalar kv.2))))]))

/-- Fallible map over a list, failing on the first error and otherwise
returning the results in order. -/
def mapOrFail {α β ε : Type} (f : α → Except ε β) : List α → Except ε (List β)
  | [] => .ok []
  | x :: xs =>
    match f x with
    | .error e => .error e
    | .ok y =>
      match mapOrFail f xs with
      | .error e => .error e
      | .ok ys => .ok (y :: ys)

/-- Modelled from the spec: document model for one Job: env mapping, resolved
outputs, then the ordered steps sequence; Job-output references are
resolved here to their final expression strings. -/
def buildJob (j : Job) : Except SynthError (String × DocNode) :=
  match mapOrFail (fun kv =>
    (resolveReference j kv.2).map (fun e => (kv.1, DocNode.scalar (.str e)))) j.outputs with
  | .error e => .error e
  | .ok outs =>
    .ok (j.id, DocNode.mapping (
      (if j.env.isEmpty then []
       else [("env", DocNode.mapping (j.env.map (fun kv => (kv.1, DocNode.scalar kv.2))))])
      ++ (if outs.isEmpty then [] else [("outputs", DocNode.mapping outs)])
      ++ [("steps", DocNode.sequence (j.steps.map buildStep))]))

/-- Modelled from the spec: rendering of a permission level to its schema
spelling. -/
def permissionToString : PermissionLevel → String
  | .read => "read"
  | .write => "write"
  | .none => "none"
  | .admin => "admin"

/-- Modelled from the spec: `build(workflow) -> DocumentNode`: the recursive
transform to the intermediate tree, with top-level keys in schema order
name, on, permissions, jobs, and jobs in insertion order. -/
def build (w : Workflow) : Except SynthError DocNode :=
  match mapOrFail buildJob w.jobs with
  | .error e => .error e
  | .ok jobs =>
    .ok (DocNode.mapping
      [("name", .scalar (.str w.name)),
       ("on", .mapping w.triggers),
       ("permissions", .mapping (w.permissions.map
          (fun kv => (kv.1, DocNode.scalar (.str (permissionToString kv.2)))))),
       ("jobs", .mapping jobs)])

/-- Modelled from the spec: one output file: deterministic path plus rendered
content. -/
structure WrittenFile where
  path : String
  content : String
deriving DecidableEq, BEq

/-- Modelled from the spec: output files are named deterministically from the
workflow id under the configured output location. -/
def outputPath (outdir wfId : String) : String :=
  outdir ++ "/" ++ wfId ++ ".yml"

/-- Modelled from the spec: `synth(project) -> list<WrittenFile>`: validate
every workflow first; abort the whole run (no partial output) with
`ValidationError` if any issue has severity error, otherwise
build → serialize → emit one file per workflow in registration order. -/
def synth (p : Project) : Except SynthError (List WrittenFile) :=
  if (validate p).any ValidationIssue.isError then
    .error (.validationError (validate p))
  else
    mapOrFail (fun w =>
      (build w).map (fun doc => WrittenFile.mk (outputPath p.outdir w.id) (render doc)))
      p.workflows

/-- The checkout step of the flat example script (CheckoutV4). -/
def checkoutStep : Step :=
  mkStep "checkout" "Checkout Code" "actions/checkout@v4" [] []

/-- The setup-node step of the flat example script (SetupNodeV4 with
node_version "14.x" and declared output "node-version"). -/
def setupNodeStep : Step :=
  mkStep "setup-node" "Set up Node.js" "actions/setup-node@v4"
    [("node-version", Scalar.str "14.x")] ["node-version"]

/-- The flat example script modelled end to end: one Project, one Workflow
"build" (push trigger on branch "main", permission contents=READ), one Job
"build" (env CI), a checkout step, a setup-node step, and a Job output
referencing the setup-node step's node-version output. -/
def exampleProjectE : Except SynthError Project := do
  let p : Project := ⟨".github/workflows", []⟩
  let wf : Workflow := ⟨"build", "Build",
    [("push", DocNode.mapping
      [("branches", DocNode.sequence [DocNode.scalar (Scalar.str "main")])])],
    [("contents", PermissionLevel.read)], []⟩
  let j0 : Job := ⟨"build", [("CI", Scalar.str "true")], [], []⟩
  let j1 ← Step.construct j0 "checkout" "Checkout Code" "actions/checkout@v4" [] []
  let j2 ← Step.construct j1 "setup-node" "Set up Node.js" "actions/setup-node@v4"
    [("node-version", Scalar.str "14.x")] ["node-version"]
  let r ← match setupNodeStep.outputsAttr "node_version" with
    | some r => Except.ok r
    | Option.none => Except.error (SynthError.unresolvedReference "setup-node" "node_version")
  let j3 := j2.add_output "node-version" r
  let wf1 ← wf.add_job j3
  p.add_workflow wf1

/-- The example project itself, extracted from its fallible construction. -/
def exampleProject : Project :=
  exampleProjectE.toOption.getD ⟨"", []⟩

/-- Key lookup in a document mapping (first match, insertion order). -/
def DocNode.lookup (d : DocNode) (k : String) : Option DocNode :=
  match d with
  | .mapping es => (es.find? (fun kv => kv.1 == k)).map Prod.snd
  | _ => Option.none

/-- Top-level keys of a document mapping, in order. -/
def docTopKeys : DocNode → List String
  | .mapping es => es.map Prod.fst
  | _ => []

/-- The id rendered for a built step document. -/
def stepIdOf (d : DocNode) : Option String :=
  match d.lookup "id" with
  | some (.scalar (.str s)) => some s
  | _ => Option.none

/-- The ordered step ids of a given job inside a built workflow document. -/
def jobStepIds (doc : DocNode) (jobId : String) : List String :=
  match (doc.lookup "jobs").bind (fun js => js.lookup jobId) with
  | some jd =>
    match jd.lookup "steps" with
    | some (.sequence xs) => xs.filterMap stepIdOf
    | _ => []
  | _ => []

/-- Top-level key lists of every built workflow of the example project. -/
def exampleTopKeys : Option (List (List String)) :=
  exampleProjectE.toOption.map (fun p =>
    p.workflows.filterMap (fun w => (build w).toOption.map docTopKeys))

/-- Ordered step-id lists of job "build" of every built workflow of the
example project. -/
def exampleStepIds : Option (List (List String)) :=
  exampleProjectE.toOption.map (fun p =>
    p.workflows.filterMap (fun w =>
      (build w).toOption.map (fun d => jobStepIds d "build")))

/-- The single workflow of the example project. -/
def exampleWorkflow : Workflow :=
  exampleProject.workflows.getD 0 ⟨"", "", [], [], []⟩

/-- The single job of the example workflow. -/
def exampleJob : Job :=
  exampleWorkflow.jobs.getD 0 ⟨"", [], [], []⟩

/-- The document built for the example workflow. -/
def exampleDoc : DocNode :=
  (build exampleWorkflow).toOption.getD (DocNode.mapping [])

/-- The job document built for the example job. -/
def exampleJobDoc : String × DocNode :=
  (buildJob exampleJob).toOption.getD ("", DocNode.mapping [])

/-- A workflow with no jobs: validation must report an error-severity issue
for it. -/
def emptyWorkflow : Workflow :=
  ⟨"empty", "Empty", [], [], []⟩

/-- A project whose single workflow fails validation. -/
def badProject : Project :=
  ⟨"out", [emptyWorkflow]⟩

theorem mapOrFail_forall₂ {α β ε : Type} (f : α → Except ε β) :
    ∀ {l : List α} {ys : List β}, mapOrFail f l = .ok ys →
      List.Forall₂ (fun x y => f x = .ok y) l ys := by
  intro l
  induction l with
  | nil =>
    intro ys h
    simp [mapOrFail] at h
    simp [← h]
  | cons x xs ih =>
    intro ys h
    cases hfx : f x with
    | error e => simp [mapOrFail, hfx] at h
    | ok y =>
      cases hrest : mapOrFail f xs with
      | error e => simp [mapOrFail, hfx, hrest] at h
      | ok ys' =>
        simp [mapOrFail, hfx, hrest] at h
        subst h
        exact List.Forall₂.cons hfx (ih hrest)

theorem mapOrFail_ok_of_forall {α β ε : Type} (f : α → Except ε β) :
    ∀ (l : List α), (∀ x ∈ l, ∃ y, f x = .ok y) →
      ∃ ys, mapOrFail f l = .ok ys ∧ List.Forall₂ (fun x y => f x = .ok y) l ys := by
  intro l
  induction l with
  | nil =>
    intro _
    exact ⟨[], rfl, List.Forall₂.nil⟩
  | cons x xs ih =>
    intro h
    obtain ⟨y, hy⟩ := h x (List.mem_cons_self x xs)
    obtain ⟨ys, hys, hall⟩ := ih (fun z hz => h z (List.mem_cons_of_mem x hz))
    exact ⟨y :: ys, by simp [mapOrFail, hy, hys], List.Forall₂.cons hy hall⟩

theorem forall₂_map_eq {α β γ : Type} {R : α → β → Prop} {g : β → γ} {h : α → γ}
    (hz : ∀ x y, R x y → g y = h x) :
    ∀ {l : List α} {ys : List β}, List.Forall₂ R l ys → ys.map g = l.map h := by
  intro l ys hall
  induction hall with
  | nil => rfl
  | cons hxy _ ih => simp [ih, hz _ _ hxy]

theorem job_issues_severity (wid : String) (j : Job) :
    ∀ i ∈ Job.issues wid j, i.severity = .error := by
  intro i hi
  unfold Job.issues at hi
  rw [List.mem_append] at hi
  cases hi with
  | inl h =>
    rw [List.mem_map] at h
    obtain ⟨kv, _, hkv⟩ := h
    rw [← hkv]
  | inr h =>
    rw [List.mem_filterMap] at h
    obtain ⟨kv, _, hkv⟩ := h
    cases hr : kv.2 with
    | stepOutput sid nm =>
      rw [hr] at hkv
      dsimp only at hkv
      by_cases hc : (j.steps.map Step.id).contains sid = true
      · rw [if_pos hc] at hkv
        exact Option.noConfusion hkv
      · rw [if_neg hc] at hkv
        rw [← Option.some.inj hkv]

theorem workflow_issues_severity (w : Workflow) :
    ∀ i ∈ Workflow.issues w, i.severity = .error := by
  intro i hi
  unfold Workflow.issues at hi
  rw [List.mem_append] at hi
  cases hi with
  | inl h =>
    by_cases he : w.jobs.isEmpty = true
    · simp [he] at h
      rw [h]
    · simp [he] at h
  | inr h =>
    rw [List.mem_flatMap] at h
    obtain ⟨j, hj, hij⟩ := h
    exact job_issues_severity w.id j i hij

theorem validate_severity (p : Project) :
    ∀ i ∈ validate p, i.severity = .error := by
  intro i hi
  unfold validate at hi
  rw [List.mem_flatMap] at hi
  obtain ⟨w, hw, hiw⟩ := hi
  exact workflow_issues_severity w i hiw

theorem validate_nil_of_no_error (p : Project)
    (h : (validate p).any ValidationIssue.isError = false) : validate p = [] := by
  cases hv : validate p with
  | nil => rfl
  | cons i rest =>
    exfalso
    have hsev : i.severity = .error := by
      apply validate_severity p
      rw [hv]
      exact List.mem_cons_self i rest
    rw [hv] at h
    simp [ValidationIssue.isError, hsev] at h
    exact absurd h.1 (by decide)


theorem resolve_ok_of_job_issues_nil (wid : String) (j : Job)
    (h : Job.issues wid j = []) :
    ∀ kv ∈ j.outputs, ∃ e, resolveReference j kv.2 = .ok e := by
  unfold Job.issues at h
  rw [List.append_eq_nil] at h
  have h2 := h.2
  rw [List.filterMap_eq_nil_iff] at h2
  intro kv hkv
  have hnone := h2 kv hkv
  cases hr : kv.2 with
  | stepOutput sid nm =>
    rw [hr] at hnone
    dsimp only at hnone
    by_cases hc : (j.steps.map Step.id).contains sid = true
    · refine ⟨"$\x7b\x7b steps." ++ sid ++ ".outputs." ++ nm ++ " \x7d\x7d", ?_⟩
      unfold resolveReference
      dsimp only
      rw [if_pos hc]
    · rw [if_neg hc] at hnone
      exact Option.noConfusion hnone

theorem buildJob_ok_of_issues_nil (wid : String) (j : Job)
    (h : Job.issues wid j = []) : ∃ d, buildJob j = .ok (j.id, d) := by
  obtain ⟨outs, houts, _⟩ :=
    mapOrFail_ok_of_forall
      (fun kv => (resolveReference j kv.2).map (fun e => (kv.1, DocNode.scalar (.str e))))
      j.outputs
      (by
        intro kv hkv
        obtain ⟨e, he⟩ := resolve_ok_of_job_issues_nil wid j h kv hkv
        exact ⟨(kv.1, DocNode.scalar (.str e)), by dsimp only; rw [he]; rfl⟩)
  refine ⟨DocNode.mapping (
      (if j.env.isEmpty then []
       else [("env", DocNode.mapping (j.env.map (fun kv => (kv.1, DocNode.scalar kv.2))))])
      ++ (if outs.isEmpty then [] else [("outputs", DocNode.mapping outs)])
      ++ [("steps", DocNode.sequence (j.steps.map buildStep))]), ?_⟩
  unfold buildJob
  rw [houts]

theorem build_ok_of_wf_issues_nil (w : Workflow)
    (h : Workflow.issues w = []) : ∃ d, build w = .ok d := by
  unfold Workflow.issues at h
  rw [List.append_eq_nil] at h
  have h2 := h.2
  rw [List.flatMap_eq_nil_iff] at h2
  obtain ⟨jobs, hjobs, _⟩ :=
    mapOrFail_ok_of_forall buildJob w.jobs
      (by
        intro j hj
        obtain ⟨d, hd⟩ := buildJob_ok_of_issues_nil w.id j (h2 j hj)
        exact ⟨(j.id, d), hd⟩)
  refine ⟨DocNode.mapping
      [("name", .scalar (.str w.name)),
       ("on", .mapping w.triggers),
       ("permissions", .mapping (w.permissions.map
          (fun kv => (kv.1, DocNode.scalar (.str (permissionToString kv.2)))))),
       ("jobs", .mapping jobs)], ?_⟩
  unfold build
  rw [hjobs]

theorem synth_error_of_error_issue (p : Project)
    (h : (validate p).any ValidationIssue.isError = true) :
    synth p = .error (.validationError (validate p)) := by
  unfold synth
  rw [if_pos h]

theorem synth_ok_of_no_error_issue (p : Project)
    (h : (validate p).any ValidationIssue.isError = false) :
    ∃ fs, synth p = .ok fs ∧
      fs.map WrittenFile.path = p.workflows.map (fun w => outputPath p.outdir w.id) := by
  have hnil := validate_nil_of_no_error p h
  unfold validate at hnil
  rw [List.flatMap_eq_nil_iff] at hnil
  obtain ⟨fs, hfs, hall⟩ :=
    mapOrFail_ok_of_forall
      (fun w => (build w).map (fun doc => WrittenFile.mk (outputPath p.outdir w.id) (render doc)))
      p.workflows
      (by
        intro w hw
        obtain ⟨d, hd⟩ := build_ok_of_wf_issues_nil w (hnil w hw)
        exact ⟨WrittenFile.mk (outputPath p.outdir w.id) (render d), by dsimp only; rw [hd]; rfl⟩)
  refine ⟨fs, ?_, ?_⟩
  · unfold synth
    rw [if_neg (by simp [h]), hfs]
  · refine forall₂_map_eq ?_ hall
    intro w f hwf
    cases hb : build w with
    | error e =>
      rw [hb] at hwf
      exact Except.noConfusion hwf
    | ok d =>
      rw [hb] at hwf
      have hf : Except.ok (WrittenFile.mk (outputPath p.outdir w.id) (render d))
          = Except.ok f := hwf
      rw [← Except.ok.inj hf]

theorem buildJob_shape (j : Job) (jd : String × DocNode) (h : buildJob j = .ok jd) :
    jd.1 = j.id ∧
    ∃ pre, jd.2 = DocNode.mapping
      (pre ++ [("steps", DocNode.sequence (j.steps.map buildStep))]) := by
  unfold buildJob at h
  cases hm : mapOrFail
      (fun kv => (resolveReference j kv.2).map (fun e => (kv.1, DocNode.scalar (.str e))))
      j.outputs with
  | error e =>
    rw [hm] at h
    exact Except.noConfusion h
  | ok outs =>
    rw [hm] at h
    dsimp only at h
    have hjd := Except.ok.inj h
    refine ⟨by rw [← hjd], ?_⟩
    refine ⟨(if j.env.isEmpty then []
        else [("env", DocNode.mapping (j.env.map (fun kv => (kv.1, DocNode.scalar kv.2))))])
      ++ (if outs.isEmpty then [] else [("outputs", DocNode.mapping outs)]), ?_⟩
    rw [← hjd]

theorem buildJob_fst (j : Job) (jd : String × DocNode) (h : buildJob j = .ok jd) :
    jd.1 = j.id :=
  (buildJob_shape j jd h).1

/-- Claim C1: synthesis is deterministic and idempotent: the
render-after-build pipeline and `synth` are pure functions of the tree, so
repeated invocations on an unchanged tree produce byte-identical output
documents and files. -/
theorem synth_deterministic_idempotent (p : Project) (w : Workflow)
    (fs fs2 : List WrittenFile) :
    synth p = synth p ∧
    (build w).map render = (build w).map render ∧
    (synth p = .ok fs → synth p = .ok fs2 → fs = fs2) :=
  ⟨rfl, rfl, fun h1 h2 => by rw [h1] at h2; exact Except.ok.inj h2⟩

/-- Witness for C1 at a concrete project. -/
theorem synth_deterministic_idempotent_witness :
    synth (Project.mk "out" []) = Except.ok [] ∧ ([] : List WrittenFile) = [] :=
  ⟨rfl, (synth_deterministic_idempotent (Project.mk "out" []) emptyWorkflow [] []).2.2 rfl rfl⟩

/-- Claim C2: constructing a second child with an id already used by a
sibling under the same scope fails with `DuplicateIdError` at construction
time, regardless of the child's type (step attached to a job, step
constructed in a job scope, job under a workflow, workflow under a
project). -/
theorem duplicate_sibling_id_fails (scope : Job) (s : Step) (w : Workflow)
    (j : Job) (p : Project) (wf : Workflow) :
    ((scope.steps.map Step.id).contains s.id = true →
      Job.add_action scope s = .error (.duplicateId scope.id s.id)) ∧
    (∀ nm uses params outs, (scope.steps.map Step.id).contains s.id = true →
      Step.construct scope s.id nm uses params outs =
        .error (.duplicateId scope.id s.id)) ∧
    ((w.jobs.map Job.id).contains j.id = true →
      w.add_job j = .error (.duplicateId w.id j.id)) ∧
    ((p.workflows.map Workflow.id).contains wf.id = true →
      p.add_workflow wf = .error (.duplicateId "project" wf.id)) := by
  refine ⟨?_, ?_, ?_, ?_⟩
  · intro h
    unfold Job.add_action
    rw [if_pos h]
  · intro nm uses params outs h
    unfold Step.construct
    rw [if_pos h]
  · intro h
    unfold Workflow.add_job
    rw [if_pos h]
  · intro h
    unfold Project.add_workflow
    rw [if_pos h]

/-- Witness for C2: two steps with id "checkout" under the same job, a
duplicate job id under a workflow, and a duplicate workflow id under a
project. -/
theorem duplicate_sibling_id_fails_witness :
    ((Job.mk "build" [] [checkoutStep] []).steps.map Step.id).contains checkoutStep.id = true ∧
    ((Workflow.mk "wf" "WF" [] [] [Job.mk "build" [] [] []]).jobs.map Job.id).contains "build" = true ∧
    ((Project.mk "out" [Workflow.mk "build" "B" [] [] []]).workflows.map Workflow.id).contains "build" = true ∧
    Job.add_action (Job.mk "build" [] [checkoutStep] []) checkoutStep =
      Except.error (SynthError.duplicateId "build" "checkout") ∧
    Step.construct (Job.mk "build" [] [checkoutStep] []) "checkout" "Checkout Code" "actions/checkout@v4" [] [] =
      Except.error (SynthError.duplicateId "build" "checkout") ∧
    Workflow.add_job (Workflow.mk "wf" "WF" [] [] [Job.mk "build" [] [] []]) (Job.mk "build" [] [] []) =
      Except.error (SynthError.duplicateId "wf" "build") ∧
    Project.add_workflow (Project.mk "out" [Workflow.mk "build" "B" [] [] []]) (Workflow.mk "build" "B2" [] [] []) =
      Except.error (SynthError.duplicateId "project" "build") := by
  have h := duplicate_sibling_id_fails (Job.mk "build" [] [checkoutStep] []) checkoutStep
    (Workflow.mk "wf" "WF" [] [] [Job.mk "build" [] [] []]) (Job.mk "build" [] [] [])
    (Project.mk "out" [Workflow.mk "build" "B" [] [] []]) (Workflow.mk "build" "B2" [] [] [])
  exact ⟨by decide, by decide, by decide,
    h.1 (by decide),
    h.2.1 "Checkout Code" "actions/checkout@v4" [] [] (by decide),
    h.2.2.1 (by decide),
    h.2.2.2 (by decide)⟩

/-- Claim C5: during document building, a Job output referencing an existing
Step's named output resolves to the schema's expression string, and a
reference whose step id does not exist in the same Job fails with
`UnresolvedReferenceError`. -/
theorem job_output_reference_resolution (j : Job) (sid nm outName : String) :
    ((j.steps.map Step.id).contains sid = true →
      resolveReference j (.stepOutput sid nm) =
        .ok ("$\x7b\x7b steps." ++ sid ++ ".outputs." ++ nm ++ " \x7d\x7d")) ∧
    ((j.steps.map Step.id).contains sid = false →
      resolveReference j (.stepOutput sid nm) =
        .error (.unresolvedReference sid nm)) ∧
    ((j.steps.map Step.id).contains sid = false →
      buildJob { j with outputs := [(outName, Reference.stepOutput sid nm)] } =
        .error (.unresolvedReference sid nm)) := by
  refine ⟨?_, ?_, ?_⟩
  · intro h
    unfold resolveReference
    dsimp only
    rw [if_pos h]
  · intro h
    unfold resolveReference
    dsimp only
    rw [if_neg (by intro hc; rw [h] at hc; exact Bool.noConfusion hc)]
  · intro h
    have hres : resolveReference { j with outputs := [(outName, Reference.stepOutput sid nm)] }
        (Reference.stepOutput sid nm) = .error (.unresolvedReference sid nm) := by
      unfold resolveReference
      dsimp only
      rw [if_neg (by intro hc; rw [h] at hc; exact Bool.noConfusion hc)]
    have hm : mapOrFail
        (fun kv => (resolveReference { j with outputs := [(outName, Reference.stepOutput sid nm)] } kv.2).map
          (fun e => (kv.1, DocNode.scalar (.str e))))
        [(outName, Reference.stepOutput sid nm)] =
        .error (.unresolvedReference sid nm) := by
      unfold mapOrFail
      dsimp only
      rw [hres]
      rfl
    unfold buildJob
    rw [hm]

/-- Witness for C5 at a concrete job with steps "checkout" and "setup-node". -/
theorem job_output_reference_resolution_witness :
    ((Job.mk "build" [] [checkoutStep, setupNodeStep] []).steps.map Step.id).contains "setup-node" = true ∧
    resolveReference (Job.mk "build" [] [checkoutStep, setupNodeStep] [])
      (Reference.stepOutput "setup-node" "node-version") =
      Except.ok "$\x7b\x7b steps.setup-node.outputs.node-version \x7d\x7d" ∧
    ((Job.mk "build" [] [checkoutStep, setupNodeStep] []).steps.map Step.id).contains "missing" = false ∧
    resolveReference (Job.mk "build" [] [checkoutStep, setupNodeStep] [])
      (Reference.stepOutput "missing" "x") =
      Except.error (SynthError.unresolvedReference "missing" "x") ∧
    buildJob { Job.mk "build" [] [checkoutStep, setupNodeStep] [] with
        outputs := [("out", Reference.stepOutput "missing" "x")] } =
      Except.error (SynthError.unresolvedReference "missing" "x") := by
  have h1 := job_output_reference_resolution
    (Job.mk "build" [] [checkoutStep, setupNodeStep] []) "setup-node" "node-version" "out"
  have h2 := job_output_reference_resolution
    (Job.mk "build" [] [checkoutStep, setupNodeStep] []) "missing" "x" "out"
  exact ⟨by decide, h1.1 (by decide), by decide, h2.2.1 (by decide), h2.2.2 (by decide)⟩

/-- Claim C8: the serializer chooses quoting from the declared scalar type,
not from string content: string-typed values are always quoted (even
"14.x" or "true"), boolean-typed values never are. -/
theorem scalar_quoting_by_declared_type (s : String) (b : Bool) :
    renderScalar (Scalar.str s) = "\"" ++ s ++ "\"" ∧
    renderScalar (Scalar.bool b) = (if b then "true" else "false") ∧
    renderScalar (Scalar.str "14.x") = "\"14.x\"" ∧
    renderScalar (Scalar.str "true") = "\"true\"" ∧
    renderScalar (Scalar.bool true) = "true" ∧
    renderScalar (Scalar.str "true") ≠ renderScalar (Scalar.bool true) :=
  ⟨rfl, rfl, by decide, by decide, rfl, by decide⟩

/-- Claim C9: a step constructed detached and attached with `Job.add_action`
yields the same job tree, and hence the same built job document, as
constructing the step with the job passed as the scope parameter. -/
theorem add_action_equiv_scope_construct (j : Job) (id nm uses : String)
    (params : List (String × Scalar)) (outs : List String) :
    Job.add_action j (mkStep id nm uses params outs) =
      Step.construct j id nm uses params outs ∧
    (Job.add_action j (mkStep id nm uses params outs)).bind buildJob =
      (Step.construct j id nm uses params outs).bind buildJob := by
  have h : Job.add_action j (mkStep id nm uses params outs) =
      Step.construct j id nm uses params outs := rfl
  exact ⟨h, by rw [h]⟩

/-- Claim C10: accessing a step's declared output before synthesis via the
outputs handle (snake_case attribute for the hyphenated declared name)
succeeds and returns a symbolic reference; it depends only on the step,
never resolving eagerly. -/
theorem outputs_handle_symbolic (s : Step)
    (h : s.declaredOutputs.contains "node-version" = true) :
    s.outputsAttr "node_version" = some (Reference.stepOutput s.id "node-version") := by
  have hs : snakeToHyphen "node_version" = "node-version" := by decide
  unfold Step.outputsAttr
  rw [hs, if_pos h]

/-- Witness for C10 at the setup-node step of the example. -/
theorem outputs_handle_symbolic_witness :
    setupNodeStep.declaredOutputs.contains "node-version" = true ∧
    setupNodeStep.outputsAttr "node_version" =
      some (Reference.stepOutput "setup-node" "node-version") :=
  ⟨by decide, outputs_handle_symbolic setupNodeStep (by decide)⟩

/-- Claim C3: `Project.synth` is all-or-nothing: if validation reports any
error-severity issue for any workflow, no output file is produced for any
workflow; otherwise one file per workflow is produced, in registration
order. -/
theorem synth_all_or_nothing (p : Project) :
    ((validate p).any ValidationIssue.isError = true →
      synth p = .error (.validationError (validate p))) ∧
    ((validate p).any ValidationIssue.isError = false →
      ∃ fs, synth p = .ok fs ∧
        fs.map WrittenFile.path = p.workflows.map (fun w => outputPath p.outdir w.id)) :=
  ⟨synth_error_of_error_issue p, synth_ok_of_no_error_issue p⟩

/-- Witness for C3: a failing project writes nothing, the example project
writes one file per workflow. -/
theorem synth_all_or_nothing_witness :
    (validate badProject).any ValidationIssue.isError = true ∧
    synth badProject = .error (.validationError (validate badProject)) ∧
    (validate exampleProject).any ValidationIssue.isError = false ∧
    ∃ fs, synth exampleProject = .ok fs ∧
      fs.map WrittenFile.path =
        exampleProject.workflows.map (fun w => outputPath exampleProject.outdir w.id) := by
  have hb := synth_all_or_nothing badProject
  have hg := synth_all_or_nothing exampleProject
  exact ⟨by decide, hb.1 (by decide), by decide, hg.2 (by decide)⟩

/-- Claim C7: `validate` returns every issue found in the tree in one pass;
synthesis aborts exactly when some issue has severity error, and an issue
list without error severity never blocks synthesis. -/
theorem validate_reports_all_issues (p : Project) :
    (∀ w ∈ p.workflows, ∀ i ∈ Workflow.issues w, i ∈ validate p) ∧
    ((validate p).any ValidationIssue.isError = true →
      synth p = .error (.validationError (validate p))) ∧
    ((validate p).any ValidationIssue.isError = false → ∃ fs, synth p = .ok fs) := by
  refine ⟨?_, synth_error_of_error_issue p, ?_⟩
  · intro w hw i hi
    unfold validate
    exact List.mem_flatMap.mpr ⟨w, hw, hi⟩
  · intro h
    obtain ⟨fs, hfs, _⟩ := synth_ok_of_no_error_issue p h
    exact ⟨fs, hfs⟩

/-- Witness for C7: the empty workflow's issue is returned by validate, the
bad project aborts, the example project synthesizes. -/
theorem validate_reports_all_issues_witness :
    emptyWorkflow ∈ badProject.workflows ∧
    (⟨"empty", "workflow must have at least one job", Severity.error⟩ : ValidationIssue) ∈
      Workflow.issues emptyWorkflow ∧
    (⟨"empty", "workflow must have at least one job", Severity.error⟩ : ValidationIssue) ∈
      validate badProject ∧
    (validate badProject).any ValidationIssue.isError = true ∧
    synth badProject = .error (.validationError (validate badProject)) ∧
    (validate exampleProject).any ValidationIssue.isError = false ∧
    ∃ fs, synth exampleProject = .ok fs := by
  have hb := validate_reports_all_issues badProject
  have hg := validate_reports_all_issues exampleProject
  have hmem : emptyWorkflow ∈ badProject.workflows := by
    simp [badProject]
  have hissue : (⟨"empty", "workflow must have at least one job",
      Severity.error⟩ : ValidationIssue) ∈ Workflow.issues emptyWorkflow := by
    simp [Workflow.issues, emptyWorkflow]
  exact ⟨hmem, hissue,
    hb.1 emptyWorkflow hmem _ hissue,
    by decide, hb.2.1 (by decide), by decide, hg.2.2 (by decide)⟩

/-- Claim C4: the serialized output lists mapping entries, jobs and steps in
exact insertion order: the serializer concatenates entry lines in entry
order (never re-sorting), built workflows list jobs in the order they were
added, and built jobs list steps in the order they were added. -/
theorem output_order_preserved :
    (∀ (ind : Nat) (es : List (String × DocNode)),
      entryLines ind es =
        es.flatMap (fun kv => (indentStr ind ++ kv.1 ++ ":") :: nodeLines (ind + 1) kv.2)) ∧
    (∀ (ind : Nat) (xs : List DocNode),
      seqLines ind xs =
        xs.flatMap (fun x => (indentStr ind ++ "-") :: nodeLines (ind + 1) x)) ∧
    (∀ (w : Workflow) (d : DocNode), build w = .ok d →
      ∃ jobsEntries,
        d = DocNode.mapping
          [("name", DocNode.scalar (Scalar.str w.name)),
           ("on", DocNode.mapping w.triggers),
           ("permissions", DocNode.mapping (w.permissions.map
              (fun kv => (kv.1, DocNode.scalar (Scalar.str (permissionToString kv.2)))))),
           ("jobs", DocNode.mapping jobsEntries)] ∧
        jobsEntries.map Prod.fst = w.jobs.map Job.id) ∧
    (∀ (j : Job) (jd : String × DocNode), buildJob j = .ok jd →
      jd.1 = j.id ∧
      ∃ pre, jd.2 = DocNode.mapping
        (pre ++ [("steps", DocNode.sequence (j.steps.map buildStep))])) := by
  refine ⟨?_, ?_, ?_, ?_⟩
  · intro ind es
    induction es with
    | nil => rfl
    | cons kv rest ih =>
      cases kv with
      | mk k v => simp [entryLines, ih]
  · intro ind xs
    induction xs with
    | nil => rfl
    | cons x rest ih => simp [seqLines, ih]
  · intro w d h
    unfold build at h
    cases hm : mapOrFail buildJob w.jobs with
    | error e =>
      rw [hm] at h
      exact Except.noConfusion h
    | ok jobsEntries =>
      rw [hm] at h
      dsimp only at h
      refine ⟨jobsEntries, ?_, ?_⟩
      · rw [← Except.ok.inj h]
      · exact forall₂_map_eq (fun x y hxy => buildJob_fst x y hxy)
          (mapOrFail_forall₂ buildJob hm)
  · intro j jd h
    exact buildJob_shape j jd h

/-- Witness for C4 at the example workflow and its job. -/
theorem output_order_preserved_witness :
    build exampleWorkflow = Except.ok exampleDoc ∧
    (∃ jobsEntries,
      exampleDoc = DocNode.mapping
        [("name", DocNode.scalar (Scalar.str exampleWorkflow.name)),
         ("on", DocNode.mapping exampleWorkflow.triggers),
         ("permissions", DocNode.mapping (exampleWorkflow.permissions.map
            (fun kv => (kv.1, DocNode.scalar (Scalar.str (permissionToString kv.2)))))),
         ("jobs", DocNode.mapping jobsEntries)] ∧
      jobsEntries.map Prod.fst = exampleWorkflow.jobs.map Job.id) ∧
    buildJob exampleJob = Except.ok exampleJobDoc ∧
    (exampleJobDoc.1 = exampleJob.id ∧
     ∃ pre, exampleJobDoc.2 = DocNode.mapping
       (pre ++ [("steps", DocNode.sequence (exampleJob.steps.map buildStep))])) := by
  have h := output_order_preserved
  have hb : build exampleWorkflow = Except.ok exampleDoc := rfl
  have hj : buildJob exampleJob = Except.ok exampleJobDoc := rfl
  exact ⟨hb, h.2.2.1 exampleWorkflow exampleDoc hb, hj, h.2.2.2 exampleJob exampleJobDoc hj⟩

/-- Claim C6: for the example project (workflow "build" with push trigger on
"main", permission contents=READ, job "build" with env CI, checkout then
setup-node), the built document's top-level keys are in order
name, on, permissions, jobs, and jobs.build.steps is a two-element
sequence in insertion order. -/
theorem example_scenario_structure :
    exampleTopKeys = some [["name", "on", "permissions", "jobs"]] ∧
    exampleStepIds = some [["checkout", "setup-node"]] :=
  ⟨rfl, rfl⟩
